import Mathlib

/-!
Shallow embedding of the peejay streaming JSON parser
(src/include/peejay/json.hpp) in Lean 4.

The embedding follows the source closely:

* every matcher state machine (`token_matcher`, `number_matcher`,
  `string_matcher`, `array_matcher`, `object_matcher`,
  `whitespace_matcher`, `eof_matcher`, `root_matcher`) is translated
  function-by-function, keeping the source's names;
* the parser driver (`parser::input`, `parser::consume_code_point`,
  `parser::eof`) is translated with the stack explicit; the
  `do … while (retry)` loop of `consume_code_point` is given a fuel
  argument large enough that it is never exhausted on any input the
  grammar can produce (each loop iteration either consumes the
  character, pops a finished matcher, or pushes one of a short, fixed
  chain of children);
* the backend is the event-recording backend: every callback succeeds
  (returns the zero error code) and is logged in order.  This models a
  parser instantiated with a non-failing backend such as the recording
  backends the claims describe; therefore `parser::set_error` applied
  to a backend return value never changes the stored error, and those
  call sites are translated as plain event emissions;
* machine integers are `Nat` with explicit `% 2^w` where the source
  can wrap (the `uint64_t` integer accumulator, the `unsigned`
  exponent accumulator);
* IEEE doubles appear only on the number matcher's
  fraction/exponent path, which no claim touches.  They are modelled
  symbolically by their exact digit accumulators (`frac_part`,
  `frac_scale`, `whole_part` as exact naturals); the one
  floating-point comparison the source makes before emitting
  (`std::isinf (std::pow (10, exponent))`) is modelled arithmetically
  as `309 ≤ exponent` (the smallest power of ten that is an IEEE-754
  double infinity is 10^309), and the final `isinf/isnan` test on the
  fully scaled value, which depends on rounding, is not modelled;
* the icubaby transcoders (`t8_32`, `t16_8`, `t32_8`) are an external
  dependency whose source is not part of this repository; they are
  modelled from the spec's transcoder contract (§6.4) and the Unicode
  standard, see the doc comments below.
-/

namespace Peejay

/-- A Unicode code point (`char32_t` in the source). -/
abbrev Char32 := Nat

/-- `peejay::error` — the parser's error codes.  `error::none` is the
zero error code and is modelled by `Option.none` on the parser side. -/
inductive Err where
  | bad_unicode_code_point
  | expected_array_member
  | expected_close_quote
  | expected_colon
  | expected_digits
  | expected_object_member
  | expected_string
  | expected_token
  | invalid_escape_char
  | invalid_hex_char
  | number_out_of_range
  | unexpected_extra_input
  | unrecognized_token
  | nesting_too_deep
  deriving DecidableEq

/-- `peejay::coord` — (line, column), both starting at 1. -/
structure Coord where
  line : Nat
  column : Nat
  deriving DecidableEq

/-- `peejay::extensions` — the opt-in extension bitmask, one Boolean
per bit. -/
structure Extensions where
  bash_comments : Bool
  single_line_comments : Bool
  multi_line_comments : Bool
  array_trailing_comma : Bool
  object_trailing_comma : Bool
  single_quote_string : Bool
  leading_plus : Bool
  deriving DecidableEq

/-- `extensions::none` — the strict RFC 8259 grammar. -/
def extNone : Extensions :=
  ⟨false, false, false, false, false, false, false⟩

/-- The number matcher's modelled-double accumulator
(`number_matcher::fp_acc_`).  `frac_part`, `frac_scale` and
`whole_part` are doubles in the source; here they hold the exact
values the source's digit loop computes (see the file comment). -/
structure FpAcc where
  frac_part : Nat
  frac_scale : Nat
  whole_part : Nat
  exp_is_negative : Bool
  exponent : Nat
  deriving DecidableEq

/-- The sink events, in the order the backend callbacks are invoked.
`double_value` carries the symbolic accumulator and the sign instead
of an IEEE double (see the file comment). -/
inductive Event where
  | string_value (s : List Nat)
  | key (s : List Nat)
  | int64_value (i : Int)
  | uint64_value (u : Nat)
  | double_value (fp : FpAcc) (neg : Bool)
  | boolean_value (b : Bool)
  | null_value
  | begin_array
  | end_array
  | begin_object
  | end_object
  deriving DecidableEq

/-- The parser fields a matcher can read or write through its
`parser<Backend> &` argument: the sticky error (`error_`), the shared
string buffer (`string_`, UTF-8 bytes), the recorded backend events
(`backend_`), and the input coordinate (`pos_`).  Matchers never touch
the stack, `matcher_pos_`, `extensions_` or the UTF-8 decoder, so
those live in `PState` below. -/
structure MState where
  error : Option Err
  string_ : List Nat
  events : List Event
  pos : Coord
  deriving DecidableEq

/-- `parser::advance_column`. -/
def advance_column (p : Coord) : Coord := ⟨p.line, p.column + 1⟩

/-- `parser::advance_row` — next line, column reset to 0 (the driver's
post-consume `advance_column` then makes it 1). -/
def advance_row (p : Coord) : Coord := ⟨p.line + 1, 0⟩

/-- `parser::reset_column`. -/
def reset_column (p : Coord) : Coord := ⟨p.line, 0⟩

/-- `details::isspace` — the four raw whitespace code points. -/
def isspace (c : Char32) : Prop :=
  c = 0x09 ∨ c = 0x0A ∨ c = 0x0D ∨ c = 0x20

instance (c : Char32) : Decidable (isspace c) := by
  unfold isspace; infer_instance

/-- `details::isalnum` — ASCII digits and letters. -/
def isalnum (c : Char32) : Prop :=
  (0x30 ≤ c ∧ c ≤ 0x39) ∨ (0x41 ≤ c ∧ c ≤ 0x5A) ∨ (0x61 ≤ c ∧ c ≤ 0x7A)

instance (c : Char32) : Decidable (isalnum c) := by
  unfold isalnum; infer_instance

/-! ### Transcoders (external: modelled from the spec) -/

/-- Modelled from the spec: the UTF-32 → UTF-8 encoder
(`icubaby::t32_8`), whose source is not part of this repository,
"is used to append ordinary code points into the string buffer"
(§6.4).  This is the standard UTF-8 encoding of a scalar value. -/
def utf8Encode (cp : Nat) : List Nat :=
  if cp < 0x80 then [cp]
  else if cp < 0x800 then
    [0xC0 + cp / 0x40, 0x80 + cp % 0x40]
  else if cp < 0x10000 then
    [0xE0 + cp / 0x1000, 0x80 + cp / 0x40 % 0x40, 0x80 + cp % 0x40]
  else
    [0xF0 + cp / 0x40000, 0x80 + cp / 0x1000 % 0x40,
     0x80 + cp / 0x40 % 0x40, 0x80 + cp % 0x40]

/-- Modelled from the spec: a UTF-32 → UTF-8 encode is well formed
exactly when the code point is a Unicode scalar value (not a
surrogate, at most U+10FFFF).  The string matcher checks this after
every ordinary append (`utf_32_to_8_.well_formed ()`). -/
def utf32WellFormed (cp : Nat) : Prop :=
  ¬(0xD800 ≤ cp ∧ cp ≤ 0xDFFF) ∧ cp ≤ 0x10FFFF

instance (cp : Nat) : Decidable (utf32WellFormed cp) := by
  unfold utf32WellFormed; infer_instance

def isHighSurrogate (u : Nat) : Prop := 0xD800 ≤ u ∧ u ≤ 0xDBFF

instance (u : Nat) : Decidable (isHighSurrogate u) := by
  unfold isHighSurrogate; infer_instance

def isLowSurrogate (u : Nat) : Prop := 0xDC00 ≤ u ∧ u ≤ 0xDFFF

instance (u : Nat) : Decidable (isLowSurrogate u) := by
  unfold isLowSurrogate; infer_instance

/-- Modelled from the spec: the UTF-16 → UTF-8 transcoder
(`icubaby::t16_8`), whose source is not part of this repository.  Per
§6.4 it is "fed one 16-bit unit at a time, carrying surrogate-pair
state across calls", with a query for an open high surrogate
(`pendingHigh.isSome`, the source's `partial ()`) and a `well_formed`
query after any feed. -/
structure T16_8 where
  pendingHigh : Option Nat
  wellFormed : Bool
  deriving DecidableEq

def t16_8_init : T16_8 := ⟨none, true⟩

/-- Modelled from the spec: feeding one UTF-16 code unit to the
transcoder, appending output bytes to `buf`.  A high surrogate is held
pending; a following low surrogate completes the pair and emits the
combined supplementary-plane code point; a mismatched or orphaned
surrogate makes the transcoder ill-formed (emitting U+FFFD, whose
bytes are unobservable because the string matcher raises
`bad_unicode_code_point` immediately). -/
def t16_8_feed (t : T16_8) (u : Nat) (buf : List Nat) : T16_8 × List Nat :=
  match t.pendingHigh with
  | some h =>
    if isLowSurrogate u then
      ({ t with pendingHigh := none },
       buf ++ utf8Encode (0x10000 + (h - 0xD800) * 0x400 + (u - 0xDC00)))
    else if isHighSurrogate u then
      (⟨some u, false⟩, buf ++ utf8Encode 0xFFFD)
    else
      (⟨none, false⟩, buf ++ utf8Encode 0xFFFD ++ utf8Encode u)
  | none =>
    if isHighSurrogate u then ({ t with pendingHigh := some u }, buf)
    else if isLowSurrogate u then (⟨none, false⟩, buf ++ utf8Encode 0xFFFD)
    else (t, buf ++ utf8Encode u)

/-- Modelled from the spec: `end_cp` — flushing the transcoder with a
high surrogate still pending leaves it ill-formed (the string matcher
asserts `!well_formed ()` right after and reports
`bad_unicode_code_point`). -/
def t16_8_end_cp (t : T16_8) (buf : List Nat) : T16_8 × List Nat :=
  match t.pendingHigh with
  | some _ => (⟨none, false⟩, buf ++ utf8Encode 0xFFFD)
  | none => (t, buf)

/-- Modelled from the spec: the UTF-8 → UTF-32 decoder
(`icubaby::t8_32`), whose source is not part of this repository,
"fed one byte at a time, signaling when a code point is complete"
(§6.4).  `needed` counts missing continuation bytes.  Malformed
sequences (which no claim exercises — every claim input is valid
UTF-8) are signalled with U+FFFD. -/
structure T8_32 where
  needed : Nat
  acc : Nat
  deriving DecidableEq

def t8_32_init : T8_32 := ⟨0, 0⟩

/-- Modelled from the spec: one byte into the UTF-8 decoder; returns
the completed code point, if any. -/
def t8_32_feed (t : T8_32) (b : Nat) : T8_32 × Option Char32 :=
  if t.needed = 0 then
    if b < 0x80 then (t, some b)
    else if 0xC0 ≤ b ∧ b < 0xE0 then (⟨1, b - 0xC0⟩, none)
    else if 0xE0 ≤ b ∧ b < 0xF0 then (⟨2, b - 0xE0⟩, none)
    else if 0xF0 ≤ b ∧ b < 0xF8 then (⟨3, b - 0xF0⟩, none)
    else (t, some 0xFFFD)
  else
    if 0x80 ≤ b ∧ b < 0xC0 then
      let acc := t.acc * 0x40 + (b - 0x80)
      if t.needed = 1 then (t8_32_init, some acc) else (⟨t.needed - 1, acc⟩, none)
    else (t8_32_init, some 0xFFFD)

/-! ### Matcher state machines -/

/-- `token_matcher` states.  The `start` state carries the not yet
matched suffix of the keyword (the source's advancing `text_`
pointer); `last` is `last_state` (all characters matched, waiting to
reject a trailing alphanumeric). -/
inductive TokState where
  | done
  | start (remaining : List Char32)
  | last
  deriving DecidableEq

/-- Which keyword a `token_matcher` instance matches, fixing its text
and its completion callback. -/
inductive TokenKind where
  | tru
  | fls
  | nul
  deriving DecidableEq

/-- The three keyword texts (`u8"true"`, `u8"false"`, `u8"null"`). -/
def tokenText : TokenKind → List Char32
  | .tru => [0x74, 0x72, 0x75, 0x65]
  | .fls => [0x66, 0x61, 0x6C, 0x73, 0x65]
  | .nul => [0x6E, 0x75, 0x6C, 0x6C]

/-- The completion callbacks `true_complete`, `false_complete`,
`null_complete` (each returns the zero error code from the recording
backend). -/
def tokenEvent : TokenKind → Event
  | .tru => .boolean_value true
  | .fls => .boolean_value false
  | .nul => .null_value

/-- `token_matcher<>::consume`.  Returns the updated parser fields,
the updated matcher state and the `consumed` flag (token matchers
never push children). -/
def token_consume (ms : MState) (tk : TokState) (kind : TokenKind)
    (ch : Option Char32) : MState × TokState × Bool :=
  match tk with
  | .start remaining =>
    match ch, remaining with
    | none, _ => ({ ms with error := some .unrecognized_token }, .done, true)
    | some c, t :: rest =>
      if c ≠ t then ({ ms with error := some .unrecognized_token }, .done, true)
      else if rest = [] then (ms, .last, true)
      else (ms, .start rest, true)
    | some _, [] => (ms, .done, true)  -- keyword texts are never empty
  | .last =>
    match ch with
    | some c =>
      if isalnum c then
        ({ ms with error := some .unrecognized_token }, .done, true)
      else
        ({ ms with events := ms.events ++ [tokenEvent kind] }, .done, false)
    | none => ({ ms with events := ms.events ++ [tokenEvent kind] }, .done, true)
  | .done => (ms, .done, true)  -- never delivered to by the driver

/-- `number_matcher` states. -/
inductive NumState where
  | done
  | leading_minus
  | integer_initial_digit
  | integer_digit
  | frac
  | frac_initial_digit
  | frac_digit
  | exponent_sign
  | exponent_initial_digit
  | exponent_digit
  deriving DecidableEq

/-- The `number_matcher` fields: state, sign flag, integral flag, the
64-bit unsigned accumulator (`int_acc_`, kept `< 2^64` by the explicit
`% 2^64`), and the modelled-double accumulator. -/
structure NumberMatcher where
  state : NumState
  is_neg : Bool
  is_integer : Bool
  int_acc : Nat
  fp_acc : FpAcc
  deriving DecidableEq

/-- A freshly constructed `number_matcher` (initial state
`leading_minus_state`). -/
def numberInit : NumberMatcher :=
  ⟨.leading_minus, false, true, 0, ⟨0, 1, 0, false, 0⟩⟩

def UINT64_MOD : Nat := 0x10000000000000000

def UINT32_MOD : Nat := 0x100000000

/-- `number_matcher::number_is_float`. -/
def number_is_float (m : NumberMatcher) : NumberMatcher :=
  if m.is_integer then
    { m with is_integer := false, fp_acc := { m.fp_acc with whole_part := m.int_acc } }
  else m

/-- `number_matcher::in_terminal_state`. -/
def in_terminal_state (m : NumberMatcher) : Prop :=
  m.state = .integer_digit ∨ m.state = .frac ∨ m.state = .frac_digit ∨
    m.state = .exponent_digit ∨ m.state = .done

instance (m : NumberMatcher) : Decidable (in_terminal_state m) := by
  unfold in_terminal_state; infer_instance

/-- `number_matcher::make_result` — called from `complete`; emits
exactly one of `int64_value`, `uint64_value`, `double_value` unless an
error is already recorded or a range error is detected here.
(See the file comment for the modelling of the floating-point path.) -/
def make_result (ms : MState) (m : NumberMatcher) : MState :=
  if ms.error.isSome then ms
  else if m.is_integer then
    -- umin = static_cast<uint64_t> (INT64_MIN) = 2^63
    if m.is_neg then
      if m.int_acc > 0x8000000000000000 then
        { ms with error := some .number_out_of_range }
      else
        { ms with events := ms.events ++
            [.int64_value (if m.int_acc = 0x8000000000000000
                           then -(0x8000000000000000 : Int)
                           else -(m.int_acc : Int))] }
    else
      { ms with events := ms.events ++ [.uint64_value m.int_acc] }
  else
    -- exp = std::pow (10, exponent); std::isinf (exp) ⟺ 309 ≤ exponent
    if 309 ≤ m.fp_acc.exponent then
      { ms with error := some .number_out_of_range }
    else
      { ms with events := ms.events ++ [.double_value m.fp_acc m.is_neg] }

/-- `number_matcher::complete` — move to `done_state`, then
`make_result`. -/
def number_complete (ms : MState) (m : NumberMatcher) : MState × NumberMatcher :=
  let m := { m with state := .done }
  (make_result ms m, m)

/-- `number_matcher::do_integer_initial_digit_state`. -/
def do_integer_initial_digit_state (ms : MState) (m : NumberMatcher)
    (c : Char32) : MState × NumberMatcher × Bool :=
  if c = 0x30 then (ms, { m with state := .frac }, true)
  else if 0x31 ≤ c ∧ c ≤ 0x39 then
    (ms, { m with int_acc := c - 0x30, state := .integer_digit }, true)
  else
    ({ ms with error := some .unrecognized_token }, { m with state := .done }, true)

/-- `number_matcher::do_leading_minus_state`.  The final `else` is the
source's dead code after `unreachable ()` (the root matcher only
dispatches `-`, `+` or a digit to a fresh number matcher). -/
def do_leading_minus_state (ms : MState) (m : NumberMatcher)
    (c : Char32) : MState × NumberMatcher × Bool :=
  if c = 0x2D then
    (ms, { m with state := .integer_initial_digit, is_neg := true }, true)
  else if c = 0x2B then
    (ms, { m with state := .integer_initial_digit }, true)
  else if 0x30 ≤ c ∧ c ≤ 0x39 then
    do_integer_initial_digit_state ms { m with state := .integer_initial_digit } c
  else
    ({ ms with error := some .number_out_of_range }, { m with state := .done }, true)

/-- `number_matcher::do_integer_digit_state` — note the wrap-around
overflow test `new_acc < int_acc` translated verbatim. -/
def do_integer_digit_state (ms : MState) (m : NumberMatcher)
    (c : Char32) : MState × NumberMatcher × Bool :=
  if c = 0x2E then
    (ms, number_is_float { m with state := .frac_initial_digit }, true)
  else if c = 0x65 ∨ c = 0x45 then
    (ms, number_is_float { m with state := .exponent_sign }, true)
  else if 0x30 ≤ c ∧ c ≤ 0x39 then
    let new_acc := (m.int_acc * 10 + (c - 0x30)) % UINT64_MOD
    if new_acc < m.int_acc then
      ({ ms with error := some .number_out_of_range }, { m with state := .done }, true)
    else
      (ms, { m with int_acc := new_acc }, true)
  else
    let (ms, m) := number_complete ms m
    (ms, m, false)

/-- `number_matcher::do_frac_state`. -/
def do_frac_state (ms : MState) (m : NumberMatcher)
    (c : Char32) : MState × NumberMatcher × Bool :=
  if c = 0x2E then (ms, { m with state := .frac_initial_digit }, true)
  else if c = 0x65 ∨ c = 0x45 then (ms, { m with state := .exponent_sign }, true)
  else if 0x30 ≤ c ∧ c ≤ 0x39 then
    ({ ms with error := some .number_out_of_range }, { m with state := .done }, true)
  else
    let (ms, m) := number_complete ms m
    (ms, m, false)

/-- `number_matcher::do_frac_digit_state` (both
`frac_initial_digit_state` and `frac_digit_state`). -/
def do_frac_digit_state (ms : MState) (m : NumberMatcher)
    (c : Char32) : MState × NumberMatcher × Bool :=
  if c = 0x65 ∨ c = 0x45 then
    let m := number_is_float m
    if m.state = .frac_initial_digit then
      ({ ms with error := some .unrecognized_token }, { m with state := .done }, true)
    else
      (ms, { m with state := .exponent_sign }, true)
  else if 0x30 ≤ c ∧ c ≤ 0x39 then
    let m := number_is_float m
    (ms, { m with
            fp_acc := { m.fp_acc with
                        frac_part := m.fp_acc.frac_part * 10 + (c - 0x30),
                        frac_scale := m.fp_acc.frac_scale * 10 },
            state := .frac_digit }, true)
  else
    if m.state = .frac_initial_digit then
      ({ ms with error := some .unrecognized_token }, { m with state := .done }, true)
    else
      let (ms, m) := number_complete ms m
      (ms, m, false)

/-- `number_matcher::do_exponent_digit_state` (both
`exponent_initial_digit_state` and `exponent_digit_state`).  The
`unsigned` exponent accumulator wraps mod 2^32. -/
def do_exponent_digit_state (ms : MState) (m : NumberMatcher)
    (c : Char32) : MState × NumberMatcher × Bool :=
  if 0x30 ≤ c ∧ c ≤ 0x39 then
    (ms, { m with
            fp_acc := { m.fp_acc with
                        exponent := (m.fp_acc.exponent * 10 + (c - 0x30)) % UINT32_MOD },
            state := .exponent_digit }, true)
  else
    if m.state = .exponent_initial_digit then
      ({ ms with error := some .unrecognized_token }, { m with state := .done }, true)
    else
      let (ms, m) := number_complete ms m
      (ms, m, false)

/-- `number_matcher::do_exponent_sign_state`. -/
def do_exponent_sign_state (ms : MState) (m : NumberMatcher)
    (c : Char32) : MState × NumberMatcher × Bool :=
  let m := number_is_float m
  let m := { m with state := .exponent_initial_digit }
  if c = 0x2B then
    (ms, { m with fp_acc := { m.fp_acc with exp_is_negative := false } }, true)
  else if c = 0x2D then
    (ms, { m with fp_acc := { m.fp_acc with exp_is_negative := true } }, true)
  else
    do_exponent_digit_state ms m c

/-- `number_matcher::consume`. -/
def number_consume (ms : MState) (m : NumberMatcher)
    (ch : Option Char32) : MState × NumberMatcher × Bool :=
  match ch with
  | some c =>
    match m.state with
    | .leading_minus => do_leading_minus_state ms m c
    | .integer_initial_digit => do_integer_initial_digit_state ms m c
    | .integer_digit => do_integer_digit_state ms m c
    | .frac => do_frac_state ms m c
    | .frac_initial_digit => do_frac_digit_state ms m c
    | .frac_digit => do_frac_digit_state ms m c
    | .exponent_sign => do_exponent_sign_state ms m c
    | .exponent_initial_digit => do_exponent_digit_state ms m c
    | .exponent_digit => do_exponent_digit_state ms m c
    | .done => (ms, m, true)  -- never delivered to by the driver
  | none =>
    let (ms, m) :=
      if in_terminal_state m then (ms, m)
      else ({ ms with error := some .expected_digits }, { m with state := .done })
    let (ms, m) := number_complete ms m
    (ms, m, true)

/-- `string_matcher` states. -/
inductive StrState where
  | done
  | start
  | normal_char
  | escape
  | hex1
  | hex2
  | hex3
  | hex4
  deriving DecidableEq

/-- The `string_matcher` fields.  The output buffer is the parser's
shared `string_` (in `MState`); `hex` is the escape accumulator
`hex_` and `utf_16_to_8` the cross-escape surrogate state. -/
structure StringMatcher where
  state : StrState
  is_object_key : Bool
  enclosing_char : Char32
  hex : Nat
  utf_16_to_8 : T16_8
  deriving DecidableEq

/-- A freshly constructed `string_matcher` (its constructor also
clears the parser's string buffer — done at the construction sites
below). -/
def stringInit (object_key : Bool) (enclosing_char : Char32) : StringMatcher :=
  ⟨.start, object_key, enclosing_char, 0, t16_8_init⟩

/-- `string_matcher::hex_value`. -/
def hex_value (c : Char32) (value : Nat) : Option Nat :=
  if 0x30 ≤ c ∧ c ≤ 0x39 then some (16 * value + (c - 0x30))
  else if 0x61 ≤ c ∧ c ≤ 0x66 then some (16 * value + (c - 0x61 + 10))
  else if 0x41 ≤ c ∧ c ≤ 0x46 then some (16 * value + (c - 0x41 + 10))
  else none

/-- `string_matcher::consume_normal` composed with the state/error
dispatch of `string_matcher::normal`. -/
def consume_normal (ms : MState) (sm : StringMatcher)
    (c : Char32) : MState × StringMatcher :=
  if c = sm.enclosing_char then
    if sm.utf_16_to_8.pendingHigh.isSome then
      let (t, buf) := t16_8_end_cp sm.utf_16_to_8 ms.string_
      ({ ms with string_ := buf, error := some .bad_unicode_code_point },
       { sm with state := .done, utf_16_to_8 := t })
    else
      -- key (view) / string_value (view) on the recording backend
      ({ ms with events := ms.events ++
          [if sm.is_object_key then .key ms.string_ else .string_value ms.string_] },
       { sm with state := .done })
  else if c = 0x5C then (ms, { sm with state := .escape })
  else if c ≤ 0x1F then
    ({ ms with error := some .bad_unicode_code_point }, { sm with state := .done })
  else
    if utf32WellFormed c then
      ({ ms with string_ := ms.string_ ++ utf8Encode c }, { sm with state := .normal_char })
    else
      ({ ms with string_ := ms.string_ ++ utf8Encode 0xFFFD,
                 error := some .bad_unicode_code_point },
       { sm with state := .done })

/-- `string_matcher::consume_escape_state` composed with the
state/error dispatch of `string_matcher::escape`.  Note: there is no
case for the single quote. -/
def consume_escape_state (ms : MState) (sm : StringMatcher)
    (c : Char32) : MState × StringMatcher :=
  if c = 0x22 ∨ c = 0x2F ∨ c = 0x5C then
    ({ ms with string_ := ms.string_ ++ utf8Encode c }, { sm with state := .normal_char })
  else if c = 0x62 then
    ({ ms with string_ := ms.string_ ++ utf8Encode 0x08 }, { sm with state := .normal_char })
  else if c = 0x66 then
    ({ ms with string_ := ms.string_ ++ utf8Encode 0x0C }, { sm with state := .normal_char })
  else if c = 0x6E then
    ({ ms with string_ := ms.string_ ++ utf8Encode 0x0A }, { sm with state := .normal_char })
  else if c = 0x72 then
    ({ ms with string_ := ms.string_ ++ utf8Encode 0x0D }, { sm with state := .normal_char })
  else if c = 0x74 then
    ({ ms with string_ := ms.string_ ++ utf8Encode 0x09 }, { sm with state := .normal_char })
  else if c = 0x75 then (ms, { sm with state := .hex1 })
  else ({ ms with error := some .invalid_escape_char }, { sm with state := .done })

/-- `string_matcher::consume_hex` composed with the state/error
dispatch of `string_matcher::hex`.  In `hex4_state` the accumulated
value is truncated to a `char16_t` and fed to the UTF-16 → UTF-8
transcoder; `well_formed ()` is checked right after. -/
def consume_hex (ms : MState) (sm : StringMatcher)
    (c : Char32) : MState × StringMatcher :=
  match hex_value c sm.hex with
  | none => ({ ms with error := some .invalid_hex_char }, { sm with state := .done })
  | some v =>
    match sm.state with
    | .hex1 => (ms, { sm with hex := v, state := .hex2 })
    | .hex2 => (ms, { sm with hex := v, state := .hex3 })
    | .hex3 => (ms, { sm with hex := v, state := .hex4 })
    | .hex4 =>
      let (t, buf) := t16_8_feed sm.utf_16_to_8 (v % 0x10000) ms.string_
      if t.wellFormed then
        ({ ms with string_ := buf },
         { sm with hex := 0, state := .normal_char, utf_16_to_8 := t })
      else
        ({ ms with string_ := buf, error := some .bad_unicode_code_point },
         { sm with utf_16_to_8 := t, state := .done })
    | _ => (ms, { sm with state := .done })  -- not a hex state: unreachable

/-- `string_matcher::consume`. -/
def string_consume (ms : MState) (sm : StringMatcher)
    (ch : Option Char32) : MState × StringMatcher :=
  match ch with
  | none => ({ ms with error := some .expected_close_quote }, { sm with state := .done })
  | some c =>
    match sm.state with
    | .start =>
      if c = sm.enclosing_char then (ms, { sm with state := .normal_char })
      else ({ ms with error := some .expected_token }, { sm with state := .done })
    | .normal_char => consume_normal ms sm c
    | .escape => consume_escape_state ms sm c
    | .hex1 => consume_hex ms sm c
    | .hex2 => consume_hex ms sm c
    | .hex3 => consume_hex ms sm c
    | .hex4 => consume_hex ms sm c
    | .done => (ms, sm)  -- never delivered to by the driver

/-- `whitespace_matcher` states. -/
inductive WsState where
  | done
  | body
  | crlf
  | single_line_comment
  | comment_start
  | multi_line_comment_body
  | multi_line_comment_ending
  | multi_line_comment_crlf
  deriving DecidableEq

/-- `whitespace_matcher::multi_line_comment_body`. -/
def ws_multi_line_comment_body (ms : MState)
    (c : Char32) : MState × WsState × Bool :=
  if c = 0x2A then (ms, .multi_line_comment_ending, true)
  else if c = 0x0D then
    ({ ms with pos := advance_row ms.pos }, .multi_line_comment_crlf, true)
  else if c = 0x0A then
    ({ ms with pos := advance_row ms.pos }, .multi_line_comment_body, true)
  else (ms, .multi_line_comment_body, true)

/-- `whitespace_matcher::consume_body`. -/
def ws_consume_body (exts : Extensions) (ms : MState)
    (c : Char32) : MState × WsState × Bool :=
  if c = 0x20 then (ms, .body, true)
  else if c = 0x09 then (ms, .body, true)
  else if c = 0x0D then ({ ms with pos := advance_row ms.pos }, .crlf, true)
  else if c = 0x0A then ({ ms with pos := advance_row ms.pos }, .body, true)
  else if c = 0x23 then
    if !exts.bash_comments then (ms, .done, false)
    else (ms, .single_line_comment, true)
  else if c = 0x2F then
    if !exts.single_line_comments && !exts.multi_line_comments then (ms, .done, false)
    else (ms, .comment_start, true)
  else (ms, .done, false)

/-- `whitespace_matcher::consume_comment_start`. -/
def ws_consume_comment_start (exts : Extensions) (ms : MState)
    (c : Char32) : MState × WsState × Bool :=
  if c = 0x2F ∧ exts.single_line_comments = true then
    (ms, .single_line_comment, true)
  else if c = 0x2A ∧ exts.multi_line_comments = true then
    (ms, .multi_line_comment_body, true)
  else ({ ms with error := some .expected_token }, .done, true)

/-- `whitespace_matcher::consume`.  The `crlf` helper (treat a LF
directly after a CR as the second half of one line break) is inlined
in the two CR/LF states. -/
def ws_consume (exts : Extensions) (ms : MState) (w : WsState)
    (ch : Option Char32) : MState × WsState × Bool :=
  match ch with
  | none => (ms, .done, true)
  | some c =>
    match w with
    | .crlf =>
      if c = 0x0A then ({ ms with pos := reset_column ms.pos }, .body, true)
      else ws_consume_body exts ms c
    | .body => ws_consume_body exts ms c
    | .comment_start => ws_consume_comment_start exts ms c
    | .multi_line_comment_ending =>
      (ms, if c = 0x2F then .body else .multi_line_comment_body, true)
    | .multi_line_comment_crlf =>
      if c = 0x0A then
        ({ ms with pos := reset_column ms.pos }, .multi_line_comment_body, true)
      else ws_multi_line_comment_body ms c
    | .multi_line_comment_body => ws_multi_line_comment_body ms c
    | .single_line_comment =>
      if c = 0x0D ∨ c = 0x0A then (ms, .body, false)
      else (ms, .single_line_comment, true)
    | .done => (ms, .done, true)  -- never delivered to by the driver

/-- `array_matcher` states. -/
inductive ArrState where
  | done
  | start
  | first_object
  | object
  | comma
  deriving DecidableEq

/-- `object_matcher` states. -/
inductive ObjState where
  | done
  | start
  | first_key
  | key
  | colon
  | value
  | comma
  deriving DecidableEq

/-- `eof_matcher` states. -/
inductive EofState where
  | done
  | start
  deriving DecidableEq

/-- `root_matcher` states. -/
inductive RootState where
  | done
  | start
  | new_token
  deriving DecidableEq

/-- The matcher sum: one variant per `matcher<Backend>` subclass, each
carrying its state fields.  The driver's reusable singleton storage
for terminal matchers is a memory optimisation with no observable
effect (each construction reinitialises the slot), so children are
plain fresh values here. -/
inductive Matcher where
  | token (tk : TokState) (kind : TokenKind)
  | number (m : NumberMatcher)
  | string (sm : StringMatcher)
  | array (a : ArrState)
  | object (o : ObjState)
  | whitespace (w : WsState)
  | eofm (e : EofState)
  | root (r : RootState) (object_key : Bool)
  deriving DecidableEq

/-- `matcher::is_done`. -/
def Matcher.isDone : Matcher → Bool
  | .token .done _ => true
  | .number m => m.state = .done
  | .string sm => sm.state = .done
  | .array .done => true
  | .object .done => true
  | .whitespace .done => true
  | .eofm .done => true
  | .root .done _ => true
  | _ => false

/-- `array_matcher::consume` (with `end_array` inlined: emit the
`end_array` event — zero on the recording backend — and move to
`done_state`). -/
def array_consume (exts : Extensions) (ms : MState) (a : ArrState)
    (ch : Option Char32) : MState × ArrState × Option Matcher × Bool :=
  match ch with
  | none => ({ ms with error := some .expected_array_member }, .done, none, true)
  | some c =>
    match a with
    | .start =>
      -- begin_array () on the recording backend returns zero
      ({ ms with events := ms.events ++ [.begin_array] }, .first_object,
       some (.whitespace .body), true)
    | .first_object =>
      if c = 0x5D then
        ({ ms with events := ms.events ++ [.end_array] }, .done, none, true)
      else (ms, .comma, some (.root .start false), false)
    | .object => (ms, .comma, some (.root .start false), false)
    | .comma =>
      if isspace c then (ms, .comma, some (.whitespace .body), false)
      else if c = 0x2C then
        (ms, if exts.array_trailing_comma then .first_object else .object,
         some (.whitespace .body), true)
      else if c = 0x5D then
        ({ ms with events := ms.events ++ [.end_array] }, .done, none, true)
      else ({ ms with error := some .expected_array_member }, .done, none, true)
    | .done => (ms, .done, none, true)  -- never delivered to by the driver

/-- `object_matcher::consume` (with `end_object` inlined). -/
def object_consume (exts : Extensions) (ms : MState) (o : ObjState)
    (ch : Option Char32) : MState × ObjState × Option Matcher × Bool :=
  match ch with
  | none => ({ ms with error := some .expected_object_member }, .done, none, true)
  | some c =>
    match o with
    | .start =>
      ({ ms with events := ms.events ++ [.begin_object] }, .first_key,
       some (.whitespace .body), true)
    | .first_key =>
      if c = 0x7D then
        ({ ms with events := ms.events ++ [.end_object] }, .done, none, true)
      else (ms, .colon, some (.root .start true), false)
    | .key => (ms, .colon, some (.root .start true), false)
    | .colon =>
      if isspace c then (ms, .colon, some (.whitespace .body), false)
      else if c = 0x3A then (ms, .value, none, true)
      else ({ ms with error := some .expected_colon }, .done, none, true)
    | .value => (ms, .comma, some (.root .start false), false)
    | .comma =>
      if isspace c then (ms, .comma, some (.whitespace .body), false)
      else if c = 0x2C then
        (ms, if exts.object_trailing_comma then .first_key else .key,
         some (.whitespace .body), true)
      else if c = 0x7D then
        ({ ms with events := ms.events ++ [.end_object] }, .done, none, true)
      else ({ ms with error := some .expected_object_member }, .done, none, true)
    | .done => (ms, .done, none, true)  -- never delivered to by the driver

/-- `eof_matcher::consume`. -/
def eof_consume (ms : MState) (_e : EofState)
    (ch : Option Char32) : MState × EofState × Bool :=
  match ch with
  | some _ => ({ ms with error := some .unexpected_extra_input }, .done, true)
  | none => (ms, .done, true)

/-- `root_matcher::consume`.  Note: with `object_key_` set and a first
character that is neither kind of quote, `expected_string` is recorded
first and the dispatch `switch` then runs anyway — its
`expected_token` branches overwrite the stored error (the source
comment: "Don't return here in order to allow the switch default to
produce a different error code for a bad token").  Constructing a
string child clears the parser's shared string buffer
(`string_matcher`'s constructor calls `str->clear ()`). -/
def root_consume (exts : Extensions) (ms : MState) (r : RootState)
    (object_key : Bool) (ch : Option Char32) :
    MState × Matcher × Option Matcher × Bool :=
  match ch with
  | none =>
    ({ ms with error := some .expected_token }, .root .done object_key, none, true)
  | some c =>
    match r with
    | .start => (ms, .root .new_token object_key, some (.whitespace .body), false)
    | .new_token =>
      let ms :=
        if object_key ∧ c ≠ 0x22 ∧ c ≠ 0x27 then
          { ms with error := some .expected_string }
        else ms
      if c = 0x2B then
        if !exts.leading_plus then
          ({ ms with error := some .expected_token }, .root .done object_key, none, true)
        else (ms, .root .done object_key, some (.number numberInit), false)
      else if c = 0x2D ∨ (0x30 ≤ c ∧ c ≤ 0x39) then
        (ms, .root .done object_key, some (.number numberInit), false)
      else if c = 0x27 then
        if !exts.single_quote_string then
          ({ ms with error := some .expected_token }, .root .done object_key, none, true)
        else
          ({ ms with string_ := [] }, .root .done object_key,
           some (.string (stringInit object_key c)), false)
      else if c = 0x22 then
        ({ ms with string_ := [] }, .root .done object_key,
         some (.string (stringInit object_key c)), false)
      else if c = 0x74 then
        (ms, .root .done object_key, some (.token (.start (tokenText .tru)) .tru), false)
      else if c = 0x66 then
        (ms, .root .done object_key, some (.token (.start (tokenText .fls)) .fls), false)
      else if c = 0x6E then
        (ms, .root .done object_key, some (.token (.start (tokenText .nul)) .nul), false)
      else if c = 0x5B then
        (ms, .root .done object_key, some (.array .start), false)
      else if c = 0x7B then
        (ms, .root .done object_key, some (.object .start), false)
      else
        ({ ms with error := some .expected_token }, .root .done object_key, none, true)
    | .done => (ms, .root .done object_key, none, true)  -- never delivered to

/-- `matcher::consume` — the dispatch over the matcher variants.
Returns the updated parser fields, the updated matcher (the source
mutates `*this` in place), an optional child to push, and the
`consumed` flag. -/
def Matcher.consume (exts : Extensions) (ms : MState) (ch : Option Char32) :
    Matcher → MState × Matcher × Option Matcher × Bool
  | .token tk kind =>
    let (ms, tk, b) := token_consume ms tk kind ch
    (ms, .token tk kind, none, b)
  | .number m =>
    let (ms, m, b) := number_consume ms m ch
    (ms, .number m, none, b)
  | .string sm =>
    let (ms, sm) := string_consume ms sm ch
    (ms, .string sm, none, true)
  | .array a =>
    let (ms, a, child, b) := array_consume exts ms a ch
    (ms, .array a, child, b)
  | .object o =>
    let (ms, o, child, b) := object_consume exts ms o ch
    (ms, .object o, child, b)
  | .whitespace w =>
    let (ms, w, b) := ws_consume exts ms w ch
    (ms, .whitespace w, none, b)
  | .eofm e =>
    let (ms, e, b) := eof_consume ms e ch
    (ms, .eofm e, none, b)
  | .root r object_key => root_consume exts ms r object_key ch

/-! ### Parser driver -/

/-- The full parser state: the matcher-visible fields, the parse
stack (head = top of stack), `matcher_pos_`, the extension set and
the UTF-8 decoder. -/
structure PState where
  ms : MState
  stack : List Matcher
  matcher_pos : Coord
  exts : Extensions
  utf : T8_32
  deriving DecidableEq

/-- `parser::max_stack_depth_`. -/
def max_stack_depth : Nat := 200

/-- The `do … while (retry)` loop of `parser::consume_code_point`,
with explicit fuel (see the file comment; the fuel passed by
`consume_code_point` is never exhausted on inputs the grammar
produces, and every concrete evaluation below runs to completion).
Per iteration: deliver to the top matcher; stop on error; pop the
matcher if done (snapshotting `matcher_pos_`); if a child was
returned, refuse it with `nesting_too_deep` when the stack already
holds more than `max_stack_depth` matchers, otherwise push it; repeat
with the same code point while `consumed` is false. -/
def consumeCodePointLoop : Nat → PState → Char32 → PState
  | 0, st, _ => st
  | fuel + 1, st, cp =>
    match st.stack with
    | [] => st  -- the source asserts the stack is never empty here
    | m :: rest =>
      match Matcher.consume st.exts st.ms (some cp) m with
      | (ms, m, child, consumed) =>
        let st1 : PState := { st with ms := ms, stack := m :: rest }
        if ms.error.isSome then st1
        else
          let st2 :=
            if m.isDone then { st1 with stack := rest, matcher_pos := ms.pos }
            else st1
          match child with
          | some c =>
            if st2.stack.length > max_stack_depth then
              { st2 with ms := { st2.ms with error := some .nesting_too_deep } }
            else
              let st3 := { st2 with stack := c :: st2.stack, matcher_pos := st2.ms.pos }
              if consumed then st3 else consumeCodePointLoop fuel st3 cp
          | none =>
            if consumed then st2 else consumeCodePointLoop fuel st2 cp

/-- `parser::consume_code_point`. -/
def consume_code_point (st : PState) (cp : Char32) : PState :=
  consumeCodePointLoop (st.stack.length + 8) st cp

/-- One byte of `parser::input`'s loop: nothing happens once the
sticky error is set; otherwise the byte goes into the UTF-8 decoder
and a completed code point is delivered, followed by
`advance_column` when no error resulted. -/
def feedByte (st : PState) (b : Nat) : PState :=
  if st.ms.error.isSome then st
  else
    match t8_32_feed st.utf b with
    | (utf, none) => { st with utf := utf }
    | (utf, some cp) =>
      let st1 := consume_code_point { st with utf := utf } cp
      if st1.ms.error.isSome then st1
      else { st1 with ms := { st1.ms with pos := advance_column st1.ms.pos } }

/-- `parser::input` over a byte sequence. -/
def input (st : PState) (bs : List Nat) : PState :=
  bs.foldl feedByte st

/-- The `while` loop of `parser::eof`, structurally recursive on the
stack: while the stack is non-empty and no error is set, deliver the
end-of-input sentinel to the top matcher and pop it (the source pops
unconditionally after the consume, before re-checking the loop
condition). -/
def eofLoop : List Matcher → PState → PState
  | [], st => st
  | m :: rest, st =>
    if st.ms.error.isSome then st
    else
      match Matcher.consume st.exts st.ms none m with
      | (ms, _m, _child, _consumed) =>
        eofLoop rest { st with ms := ms, stack := rest }

/-- `parser::eof`.  Its return value, `backend ().result ()`, is the
recording backend's event list, `(eofRun st).ms.events`. -/
def eofRun (st : PState) : PState :=
  eofLoop st.stack st

/-- `parser::parser` — the initial state: the stack holds (bottom to
top) the EOF matcher, the trailing-whitespace matcher and a root
matcher. -/
def initState (exts : Extensions) : PState :=
  { ms := { error := none, string_ := [], events := [], pos := ⟨1, 1⟩ },
    stack := [.root .start false, .whitespace .body, .eofm .start],
    matcher_pos := ⟨1, 1⟩,
    exts := exts,
    utf := t8_32_init }

/-! ### Helper definitions for the theorems -/

/-- The parser fields of a freshly constructed parser. -/
def msInit : MState := ⟨none, [], [], ⟨1, 1⟩⟩

/-- Drives a single terminal matcher over a sequence of code points
exactly as `parser::consume_code_point` would: characters are
delivered one by one while no error is recorded and the matcher has
not reached its done state.  (Terminal matchers never push children
and, while un-done and error-free, always consume the delivered
character.) -/
def deliverAll (exts : Extensions) : List Char32 → MState × Matcher → MState × Matcher
  | [], p => p
  | c :: cs, p =>
    if p.1.error.isSome || p.2.isDone then p
    else
      match Matcher.consume exts p.1 (some c) p.2 with
      | (ms, m, _child, _consumed) => deliverAll exts cs (ms, m)

/-- Classification of the first non-whitespace character examined by
`root_matcher::consume` in `new_token_state`: the characters that
dispatch to a value matcher (so that the `switch` does not reach a
branch that overwrites the stored error). -/
def value_start (exts : Extensions) (c : Char32) : Prop :=
  c = 0x2D ∨ (0x30 ≤ c ∧ c ≤ 0x39) ∨ c = 0x74 ∨ c = 0x66 ∨ c = 0x6E ∨
    c = 0x5B ∨ c = 0x7B ∨ (c = 0x2B ∧ exts.leading_plus = true)

instance (exts : Extensions) (c : Char32) : Decidable (value_start exts c) := by
  unfold value_start; infer_instance

/-! ### Shared lemmas -/

/-- Feeding two byte runs in sequence is feeding their
concatenation: `parser::input` is a left fold over bytes. -/
theorem input_append (st : PState) (as bs : List Nat) :
    input st (as ++ bs) = input (input st as) bs :=
  List.foldl_append ..

/-- Chunked feeding equals single-chunk feeding of the joined bytes,
from any parser state. -/
theorem input_chunks (css : List (List Nat)) :
    ∀ st : PState, List.foldl input st css = input st css.flatten := by
  induction css with
  | nil => intro st; rfl
  | cons c cs ih =>
    intro st
    rw [List.foldl_cons, ih (input st c), List.flatten_cons, input_append]

/-- `consumeCodePointLoop` never grows the stack beyond 201 matchers:
every push is guarded by `stack.size () > max_stack_depth`, i.e. it
only happens when the stack holds at most 200 matchers. -/
theorem consumeCodePointLoop_stack_le (fuel : Nat) :
    ∀ (st : PState) (cp : Char32), st.stack.length ≤ 201 →
      (consumeCodePointLoop fuel st cp).stack.length ≤ 201 := by
  induction fuel with
  | zero => intro st cp h; exact h
  | succ fuel ih =>
    intro st cp h
    rcases hst : st.stack with _ | ⟨m, rest⟩
    · simp [consumeCodePointLoop, hst]
    · have hrest : rest.length + 1 ≤ 201 := by simpa [hst] using h
      rcases hc : Matcher.consume st.exts st.ms (some cp) m with ⟨ms, m', child, consumed⟩
      rcases child with _ | c <;>
        simp only [consumeCodePointLoop, hst, hc, max_stack_depth, gt_iff_lt] <;>
        split <;>
        try simpa using hrest
      · repeat' split
        all_goals try (apply ih _ cp)
        all_goals simp_all
        all_goals omega
      · repeat' split
        all_goals try (apply ih _ cp)
        all_goals simp_all
        all_goals omega

/-- `feedByte` preserves the 201 stack bound. -/
theorem feedByte_stack_le (st : PState) (b : Nat) (h : st.stack.length ≤ 201) :
    (feedByte st b).stack.length ≤ 201 := by
  unfold feedByte
  by_cases herr : st.ms.error.isSome
  · simpa [herr] using h
  · simp only [herr, if_false, Bool.false_eq_true]
    rcases hf : t8_32_feed st.utf b with ⟨utf, cp?⟩
    rcases cp? with _ | cp
    · simpa using h
    · simp only []
      have h1 : (consume_code_point { st with utf := utf } cp).stack.length ≤ 201 := by
        unfold consume_code_point
        apply consumeCodePointLoop_stack_le
        simpa using h
      split <;> simpa using h1

/-- `input` preserves the 201 stack bound from any state. -/
theorem input_stack_le (bs : List Nat) :
    ∀ st : PState, st.stack.length ≤ 201 → (input st bs).stack.length ≤ 201 := by
  induction bs with
  | nil => intro st h; exact h
  | cons b bs ih =>
    intro st h
    rw [input, List.foldl_cons]
    exact ih _ (feedByte_stack_le st b h)

/-- `eofLoop` (which only pops) preserves the 201 stack bound. -/
theorem eofLoop_stack_le (l : List Matcher) :
    ∀ st : PState, st.stack = l → st.stack.length ≤ 201 →
      (eofLoop l st).stack.length ≤ 201 := by
  induction l with
  | nil => intro st _ h; exact h
  | cons m rest ih =>
    intro st hsync h
    unfold eofLoop
    by_cases herr : st.ms.error.isSome
    · simpa [herr] using h
    · simp only [herr, if_false, Bool.false_eq_true]
      rcases hc : Matcher.consume st.exts st.ms none m with ⟨ms, m', child, consumed⟩
      apply ih
      · rfl
      · simp only [List.length_cons]
        have : rest.length + 1 ≤ 201 := by rw [← List.length_cons m rest, ← hsync]; exact h
        omega

/-- C3 (amended): at every point of any parse the stack holds at most
201 matchers — the source checks `stack_.size () > max_stack_depth_`
*before* pushing, so a push at depth exactly 200 succeeds and yields
depth 201; only a push attempted at depth 201 is refused with
`nesting_too_deep`. -/
theorem c3_stack_depth_le_201 (exts : Extensions) (bs : List Nat) :
    (input (initState exts) bs).stack.length ≤ 201 ∧
      (eofRun (input (initState exts) bs)).stack.length ≤ 201 := by
  have h0 : (initState exts).stack.length ≤ 201 := by simp [initState]
  have h1 := input_stack_le bs (initState exts) h0
  exact ⟨h1, eofLoop_stack_le _ _ rfl h1⟩

set_option maxRecDepth 40000 in
/-- C3 (counterexample to the claim as stated): after 198 `[`
characters the parse stack holds 201 matchers — more than 200 — and no
error (in particular not `nesting_too_deep`) has been reported. -/
theorem c3_depth_201_reachable :
    (input (initState extNone) (List.replicate 198 0x5B)).stack.length = 201 ∧
      (input (initState extNone) (List.replicate 198 0x5B)).ms.error = none := by
  decide

set_option maxRecDepth 4000 in
/-- C1 (the code at the failing input): the 21-digit integer literal
184467440737095516159 = (2^64 − 1) · 10 + 9 is far outside the
unsigned-64-bit range, yet the parse finishes without error and emits
`uint64_value (2^64 − 1)`: the wrap-around `new_acc < int_acc`
overflow test in `do_integer_digit_state` misses this step, because
(2^64 − 1) · 10 + 9 ≡ 2^64 − 1 (mod 2^64). -/
theorem c1_overflow_undetected :
    (eofRun (input (initState extNone)
        [0x31, 0x38, 0x34, 0x34, 0x36, 0x37, 0x34, 0x34, 0x30, 0x37, 0x33,
         0x37, 0x30, 0x39, 0x35, 0x35, 0x31, 0x36, 0x31, 0x35, 0x39])).ms.events
      = [Event.uint64_value 18446744073709551615] ∧
    (eofRun (input (initState extNone)
        [0x31, 0x38, 0x34, 0x34, 0x36, 0x37, 0x34, 0x34, 0x30, 0x37, 0x33,
         0x37, 0x30, 0x39, 0x35, 0x35, 0x31, 0x36, 0x31, 0x35, 0x39])).ms.error = none := by
  decide

/-- C2: feeding a document's bytes as any sequence of chunks followed
by `eof ()` produces exactly the same sink-event sequence as feeding
them in a single `input` call followed by `eof ()` (here: the entire
final parser states coincide, so in particular the recorded events
do). -/
theorem c2_chunk_invariance (exts : Extensions) (css : List (List Nat)) :
    (eofRun (List.foldl input (initState exts) css)).ms.events
      = (eofRun (input (initState exts) css.flatten)).ms.events := by
  rw [input_chunks]

/-- C5 (amended): in the escape state, `\"`, `\/` and `\\` append the
literal character to the string buffer and return to the normal
state; `\'` is *not* accepted — it stops the parse with
`invalid_escape_char` (there is no single-quote case in
`consume_escape_state`). -/
theorem c5_escape_chars (exts : Extensions) (ms : MState) (k : Bool)
    (q : Char32) (hx : Nat) (t : T16_8) :
    (Matcher.consume exts ms (some 0x22) (.string ⟨.escape, k, q, hx, t⟩)
      = ({ ms with string_ := ms.string_ ++ [0x22] },
         .string ⟨.normal_char, k, q, hx, t⟩, none, true)) ∧
    (Matcher.consume exts ms (some 0x2F) (.string ⟨.escape, k, q, hx, t⟩)
      = ({ ms with string_ := ms.string_ ++ [0x2F] },
         .string ⟨.normal_char, k, q, hx, t⟩, none, true)) ∧
    (Matcher.consume exts ms (some 0x5C) (.string ⟨.escape, k, q, hx, t⟩)
      = ({ ms with string_ := ms.string_ ++ [0x5C] },
         .string ⟨.normal_char, k, q, hx, t⟩, none, true)) ∧
    (Matcher.consume exts ms (some 0x27) (.string ⟨.escape, k, q, hx, t⟩)
      = ({ ms with error := some .invalid_escape_char },
         .string ⟨.done, k, q, hx, t⟩, none, true)) := by
  refine ⟨rfl, rfl, rfl, rfl⟩

/-- C5 (counterexample to the claim as stated): the document `"\'"`
does not append a literal single quote and continue — it stops the
parse with `invalid_escape_char`. -/
theorem c5_backslash_quote_rejected :
    (input (initState extNone) [0x22, 0x5C, 0x27, 0x22]).ms.error
      = some Err.invalid_escape_char := by
  decide

/-- Once the sticky error is set, one `input` byte is a no-op. -/
theorem feedByte_noop (st : PState) (b : Nat) (h : st.ms.error.isSome = true) :
    feedByte st b = st := by
  unfold feedByte
  simp [h]

/-- C6: once the sticky error is set, every subsequent `input` call is
a complete no-op — no byte is consumed, no sink callback is invoked,
and the stored error (hence `last_error ()`) is unchanged, because the
whole parser state is unchanged. -/
theorem c6_sticky_error_input_noop (st : PState) (bs : List Nat)
    (h : st.ms.error.isSome = true) :
    input st bs = st := by
  induction bs with
  | nil => rfl
  | cons b bs ih =>
    rw [input, List.foldl_cons, feedByte_noop st b h]
    exact ih

/-- C6 witness: the document `x` stops with `expected_token`; feeding
a further byte afterwards changes nothing at all. -/
theorem c6_sticky_error_input_noop_witness :
    (input (initState extNone) [0x78]).ms.error.isSome = true ∧
      input (input (initState extNone) [0x78]) [0x31]
        = input (initState extNone) [0x78] :=
  ⟨by decide, c6_sticky_error_input_noop (input (initState extNone) [0x78]) [0x31] (by decide)⟩

/-- C8 (amended): a `/` delivered to the whitespace matcher in its
body state when neither comment extension is enabled does *not*
produce `expected_token` from the whitespace matcher: the matcher
moves to its done state and returns `consumed = false` with no error,
so the slash is re-delivered to the enclosing matcher (which then
produces a context-dependent error: e.g. `expected_token` at a value
position, but `unexpected_extra_input` after the top-level value). -/
theorem c8_slash_stops_whitespace (exts : Extensions) (ms : MState)
    (h1 : exts.single_line_comments = false)
    (h2 : exts.multi_line_comments = false) :
    Matcher.consume exts ms (some 0x2F) (.whitespace .body)
      = (ms, .whitespace .done, none, false) := by
  simp [Matcher.consume, ws_consume, ws_consume_body, h1, h2]

/-- C8 witness for the amended statement at the default extension
set. -/
theorem c8_slash_stops_whitespace_witness :
    extNone.single_line_comments = false ∧
      Matcher.consume extNone msInit (some 0x2F) (.whitespace .body)
        = (msInit, .whitespace .done, none, false) :=
  ⟨rfl, c8_slash_stops_whitespace extNone msInit rfl rfl⟩

/-- C8 (counterexample to the claim as stated): in the document
`1 /` the slash is delivered to the (trailing) whitespace matcher in
its body state, and the resulting sticky error is
`unexpected_extra_input`, not `expected_token`. -/
theorem c8_slash_not_expected_token :
    (input (initState extNone) [0x31, 0x20, 0x2F]).ms.error
      = some Err.unexpected_extra_input := by
  decide

/-- If `eofLoop` ends without error, it ran the stack down to empty. -/
theorem eofLoop_error_none_stack_nil (l : List Matcher) :
    ∀ st : PState, st.stack = l → (eofLoop l st).ms.error = none →
      (eofLoop l st).stack = [] := by
  induction l with
  | nil => intro st hsync _; simpa [eofLoop] using hsync
  | cons m rest ih =>
    intro st hsync herr
    unfold eofLoop at herr ⊢
    by_cases h : st.ms.error.isSome
    · rw [if_pos h] at herr
      rw [Option.isSome_iff_exists] at h
      rcases h with ⟨e, he⟩
      rw [he] at herr
      cases herr
    · rw [if_neg h] at herr ⊢
      rcases hc : Matcher.consume st.exts st.ms none m with ⟨ms, m', child, consumed⟩
      simp only [hc] at herr ⊢
      exact ih _ rfl herr

/-- C10: if `eof ()` completes without a sticky error then the parse
stack is empty afterwards, a second `eof ()` is the identity (it
delivers nothing to any matcher and sets no error), and `backend
().result ()` — the recorded event list — is returned unchanged. -/
theorem c10_eof_idempotent (st : PState)
    (h : (eofRun st).ms.error = none) :
    (eofRun st).stack = [] ∧ eofRun (eofRun st) = eofRun st ∧
      (eofRun (eofRun st)).ms.events = (eofRun st).ms.events := by
  have hnil : (eofRun st).stack = [] :=
    eofLoop_error_none_stack_nil st.stack st rfl h
  have hid : eofRun (eofRun st) = eofRun st := by
    rw [eofRun, hnil]
    rfl
  exact ⟨hnil, hid, by rw [hid]⟩

/-- C10 witness: after parsing the document `1` to completion,
`eof ()` leaves no error, an empty stack and is idempotent. -/
theorem c10_eof_idempotent_witness :
    (eofRun (input (initState extNone) [0x31])).ms.error = none ∧
      (eofRun (input (initState extNone) [0x31])).stack = [] ∧
      eofRun (eofRun (input (initState extNone) [0x31]))
        = eofRun (input (initState extNone) [0x31]) ∧
      (eofRun (eofRun (input (initState extNone) [0x31]))).ms.events
        = (eofRun (input (initState extNone) [0x31])).ms.events := by
  refine ⟨by decide, ?_⟩
  have h := c10_eof_idempotent (input (initState extNone) [0x31]) (by decide)
  exact ⟨h.1, h.2.1, h.2.2⟩

/-- C7 (amended): for a root matcher with `object_key = true` whose
first non-whitespace character `c` is neither `"` nor `'`:
`expected_string` is recorded first, but the dispatch `switch` still
runs, so the resulting sticky error is `expected_string` only when `c`
starts a value (a digit, `-`, `t`, `f`, `n`, `[`, `{`, or `+` with
`leading_plus` enabled); for every other character the `switch`
overwrites it with `expected_token`. -/
theorem c7_object_key_error (exts : Extensions) (ms : MState) (c : Char32)
    (herr : ms.error = none) (h22 : c ≠ 0x22) (h27 : c ≠ 0x27) :
    (Matcher.consume exts ms (some c) (.root .new_token true)).1.error
      = some (if value_start exts c then Err.expected_string else Err.expected_token) := by
  have hobj : (true : Bool) ∧ c ≠ 0x22 ∧ c ≠ 0x27 := ⟨rfl, h22, h27⟩
  simp only [Matcher.consume, root_consume, if_pos hobj]
  by_cases h2B : c = 0x2B
  · subst h2B
    rcases hlp : exts.leading_plus with _ | _ <;>
      simp [hlp, value_start]
  · rw [if_neg h2B]
    by_cases hnum : c = 0x2D ∨ (0x30 ≤ c ∧ c ≤ 0x39)
    · rw [if_pos hnum]
      have : value_start exts c := by unfold value_start; tauto
      simp [this, h22, h27]
    · rw [if_neg hnum, if_neg h27, if_neg h22]
      by_cases h74 : c = 0x74
      · subst h74; simp [value_start]
      · rw [if_neg h74]
        by_cases h66 : c = 0x66
        · subst h66; simp [value_start]
        · rw [if_neg h66]
          by_cases h6E : c = 0x6E
          · subst h6E; simp [value_start]
          · rw [if_neg h6E]
            by_cases h5B : c = 0x5B
            · subst h5B; simp [value_start]
            · rw [if_neg h5B]
              by_cases h7B : c = 0x7B
              · subst h7B; simp [value_start]
              · rw [if_neg h7B]
                have : ¬ value_start exts c := by
                  unfold value_start; tauto
                simp [this, h22, h27]

/-- C7 witness for the amended statement: `x` after `{` is not a value
start, so the stored error ends up as `expected_token`. -/
theorem c7_object_key_error_witness :
    msInit.error = none ∧
      (Matcher.consume extNone msInit (some 0x78) (.root .new_token true)).1.error
        = some Err.expected_token := by
  refine ⟨rfl, ?_⟩
  have h := c7_object_key_error extNone msInit 0x78 rfl (by decide) (by decide)
  rwa [if_neg (by decide)] at h

/-- C7 (counterexample to the claim as stated): in the document `{x`
the first non-whitespace character seen by the `object_key = true`
root matcher is `x` — not a quote — yet the resulting sticky error is
`expected_token`, not `expected_string` (the dispatch default
overwrites it). -/
theorem c7_expected_token_overrides :
    (input (initState extNone) [0x7B, 0x78]).ms.error = some Err.expected_token := by
  decide

/-- `hex_value` accumulates: if a character has hex digit value `d`,
then feeding it on top of an accumulated `v` yields `16 v + d`. -/
theorem hex_value_acc {c d : Nat} (h : hex_value c 0 = some d) (v : Nat) :
    hex_value c v = some (16 * v + d) := by
  unfold hex_value at h ⊢
  split_ifs at h ⊢ <;> simp_all

/-- Once a matcher is stopped (error set or done), `deliverAll`
delivers nothing further. -/
theorem deliverAll_stopped (exts : Extensions) (bs : List Char32) (p : MState × Matcher)
    (h : (p.1.error.isSome || p.2.isDone) = true) :
    deliverAll exts bs p = p := by
  cases bs with
  | nil => rfl
  | cons c cs => simp [deliverAll, h]

/-- `deliverAll` composes over concatenation of character runs. -/
theorem deliverAll_append (exts : Extensions) (as bs : List Char32) :
    ∀ p, deliverAll exts (as ++ bs) p = deliverAll exts bs (deliverAll exts as p) := by
  induction as with
  | nil => intro p; rfl
  | cons c as ih =>
    intro p
    rw [List.cons_append]
    by_cases h : (p.1.error.isSome || p.2.isDone) = true
    · rw [show deliverAll exts (c :: (as ++ bs)) p = p from by simp [deliverAll, h],
          show deliverAll exts (c :: as) p = p from by simp [deliverAll, h],
          deliverAll_stopped exts bs p h]
    · simp only [deliverAll, h, if_false, Bool.false_eq_true]
      rcases hc : Matcher.consume exts p.1 (some c) p.2 with ⟨ms, m, child, consumed⟩
      exact ih (ms, m)

/-- One `\uXXXX` escape unit delivered to the string matcher in its
normal state: `\`, `u` and four hex digits accumulate the 16-bit code
unit and feed it to the UTF-16 → UTF-8 transcoder, whose
`well_formed` flag is then checked. -/
theorem string_escape_u_unit (exts : Extensions) (ms : MState) (k : Bool) (q : Char32)
    (t t' : T16_8) (c1 c2 c3 c4 d1 d2 d3 d4 : Nat) (buf : List Nat)
    (herr : ms.error = none)
    (hq : q ≠ 0x5C)
    (h1 : hex_value c1 0 = some d1) (h2 : hex_value c2 0 = some d2)
    (h3 : hex_value c3 0 = some d3) (h4 : hex_value c4 0 = some d4)
    (hfeed : t16_8_feed t ((16 * (16 * (16 * d1 + d2) + d3) + d4) % 0x10000) ms.string_
              = (t', buf))
    (hwf : t'.wellFormed = true) :
    deliverAll exts [0x5C, 0x75, c1, c2, c3, c4]
        (ms, .string ⟨.normal_char, k, q, 0, t⟩)
      = ({ ms with string_ := buf }, .string ⟨.normal_char, k, q, 0, t'⟩) := by
  have hv2 := hex_value_acc h2 d1
  have hv3 := hex_value_acc h3 (16 * d1 + d2)
  have hv4 := hex_value_acc h4 (16 * (16 * d1 + d2) + d3)
  simp [deliverAll, Matcher.consume, Matcher.isDone, string_consume, consume_normal,
    consume_escape_state, consume_hex, herr, Ne.symm hq, h1, hv2, hv3, hv4, hfeed, hwf]

/-- C4: (a) a `\uXXXX` escape carrying a UTF-16 high surrogate `hi`
immediately followed by a `\uXXXX` escape carrying a low surrogate
`lo` appends to the string buffer exactly the UTF-8 encoding of the
single combined supplementary-plane code point
`0x10000 + (hi − 0xD800) · 0x400 + (lo − 0xDC00)`, leaving the
matcher in its normal state with no pending surrogate and no error;
and (b) if the closing quote arrives while a high surrogate is still
pending, the parse stops with `bad_unicode_code_point`. -/
theorem c4_surrogate_pairs (exts : Extensions) (ms : MState) (k : Bool)
    (q hi lo c1 c2 c3 c4 c5 c6 c7 c8 d1 d2 d3 d4 d5 d6 d7 d8 : Nat)
    (herr : ms.error = none)
    (hq : q = 0x22 ∨ q = 0x27)
    (h1 : hex_value c1 0 = some d1) (h2 : hex_value c2 0 = some d2)
    (h3 : hex_value c3 0 = some d3) (h4 : hex_value c4 0 = some d4)
    (h5 : hex_value c5 0 = some d5) (h6 : hex_value c6 0 = some d6)
    (h7 : hex_value c7 0 = some d7) (h8 : hex_value c8 0 = some d8)
    (hhi : hi = 16 * (16 * (16 * d1 + d2) + d3) + d4)
    (hlo : lo = 16 * (16 * (16 * d5 + d6) + d7) + d8)
    (hhi1 : 0xD800 ≤ hi) (hhi2 : hi ≤ 0xDBFF)
    (hlo1 : 0xDC00 ≤ lo) (hlo2 : lo ≤ 0xDFFF) :
    (deliverAll exts [0x5C, 0x75, c1, c2, c3, c4, 0x5C, 0x75, c5, c6, c7, c8]
        (ms, .string ⟨.normal_char, k, q, 0, t16_8_init⟩)
      = ({ ms with string_ := ms.string_ ++
            utf8Encode (0x10000 + (hi - 0xD800) * 0x400 + (lo - 0xDC00)) },
         .string ⟨.normal_char, k, q, 0, t16_8_init⟩)) ∧
    ∀ ms2 : MState,
      (Matcher.consume exts ms2 (some q)
          (.string ⟨.normal_char, k, q, 0, ⟨some hi, true⟩⟩)).1.error
        = some Err.bad_unicode_code_point := by
  have hq' : q ≠ 0x5C := by rcases hq with h | h <;> subst h <;> decide
  constructor
  · have hsplit : ([0x5C, 0x75, c1, c2, c3, c4, 0x5C, 0x75, c5, c6, c7, c8] : List Char32)
        = [0x5C, 0x75, c1, c2, c3, c4] ++ [0x5C, 0x75, c5, c6, c7, c8] := rfl
    rw [hsplit, deliverAll_append]
    have hmod1 : (16 * (16 * (16 * d1 + d2) + d3) + d4) % 0x10000 = hi := by omega
    have hfeed1 : t16_8_feed t16_8_init
        ((16 * (16 * (16 * d1 + d2) + d3) + d4) % 0x10000) ms.string_
        = (⟨some hi, true⟩, ms.string_) := by
      rw [hmod1]
      simp [t16_8_feed, t16_8_init, isHighSurrogate, hhi1, hhi2]
    rw [string_escape_u_unit exts ms k q t16_8_init ⟨some hi, true⟩ c1 c2 c3 c4 d1 d2 d3 d4
          ms.string_ herr hq' h1 h2 h3 h4 hfeed1 rfl]
    have heta : ({ ms with string_ := ms.string_ } : MState) = ms := rfl
    rw [heta]
    have hmod2 : (16 * (16 * (16 * d5 + d6) + d7) + d8) % 0x10000 = lo := by omega
    have hfeed2 : t16_8_feed ⟨some hi, true⟩
        ((16 * (16 * (16 * d5 + d6) + d7) + d8) % 0x10000) ms.string_
        = (t16_8_init,
           ms.string_ ++ utf8Encode (0x10000 + (hi - 0xD800) * 0x400 + (lo - 0xDC00))) := by
      rw [hmod2]
      simp [t16_8_feed, t16_8_init, isLowSurrogate, hlo1, hlo2]
    rw [string_escape_u_unit exts ms k q ⟨some hi, true⟩ t16_8_init c5 c6 c7 c8 d5 d6 d7 d8
          _ herr hq' h5 h6 h7 h8 hfeed2 rfl]
  · intro ms2
    simp [Matcher.consume, string_consume, consume_normal, t16_8_end_cp]

/-- C4 witness: `𝄞` appends exactly the bytes
`F0 9D 84 9E` (U+1D11E), and a closing `"` with the high surrogate
D834 still pending yields `bad_unicode_code_point`. -/
theorem c4_surrogate_pairs_witness :
    hex_value 0x44 0 = some 13 ∧
    (deliverAll extNone
        [0x5C, 0x75, 0x44, 0x38, 0x33, 0x34, 0x5C, 0x75, 0x44, 0x44, 0x31, 0x45]
        (msInit, .string ⟨.normal_char, false, 0x22, 0, t16_8_init⟩)
      = ({ msInit with string_ := [0xF0, 0x9D, 0x84, 0x9E] },
         .string ⟨.normal_char, false, 0x22, 0, t16_8_init⟩)) ∧
    (Matcher.consume extNone msInit (some 0x22)
        (.string ⟨.normal_char, false, 0x22, 0, ⟨some 0xD834, true⟩⟩)).1.error
      = some Err.bad_unicode_code_point := by
  have h := c4_surrogate_pairs extNone msInit false 0x22 0xD834 0xDD1E
    0x44 0x38 0x33 0x34 0x44 0x44 0x31 0x45 13 8 3 4 13 13 1 14
    rfl (Or.inl rfl) (by decide) (by decide) (by decide) (by decide)
    (by decide) (by decide) (by decide) (by decide) (by decide) (by decide)
    (by decide) (by decide) (by decide) (by decide)
  refine ⟨by decide, ?_, h.2 msInit⟩
  rw [h.1]
  rfl

/-- One whitespace byte (tab, LF, CR or space) keeps a parser that has
so far seen only whitespace in one of the whitespace-scanning stack
shapes, with no error, no events relevant here, and the UTF-8 decoder
at its initial state. -/
theorem c9_step (ms : MState) (mp : Coord) (exts : Extensions) (b : Nat)
    (hb : b = 9 ∨ b = 10 ∨ b = 13 ∨ b = 32)
    (herr : ms.error = none) :
    ∀ stk,
      (stk = [Matcher.root .start false, .whitespace .body, .eofm .start] ∨
       stk = [Matcher.whitespace .body, .root .new_token false, .whitespace .body, .eofm .start] ∨
       stk = [Matcher.whitespace .crlf, .root .new_token false, .whitespace .body, .eofm .start]) →
      (feedByte ⟨ms, stk, mp, exts, t8_32_init⟩ b).ms.error = none ∧
      (feedByte ⟨ms, stk, mp, exts, t8_32_init⟩ b).utf = t8_32_init ∧
      ((feedByte ⟨ms, stk, mp, exts, t8_32_init⟩ b).stack
          = [Matcher.whitespace .body, .root .new_token false, .whitespace .body, .eofm .start] ∨
       (feedByte ⟨ms, stk, mp, exts, t8_32_init⟩ b).stack
          = [Matcher.whitespace .crlf, .root .new_token false, .whitespace .body, .eofm .start]) := by
  obtain ⟨e, s, ev, p⟩ := ms
  cases herr
  intro stk hstk
  rcases hb with hb | hb | hb | hb <;> subst hb <;>
    rcases hstk with hstk | hstk | hstk <;> subst hstk <;>
      simp [feedByte, t8_32_feed, t8_32_init, consume_code_point, consumeCodePointLoop,
        Matcher.consume, ws_consume, ws_consume_body, ws_consume_comment_start,
        ws_multi_line_comment_body, root_consume, Matcher.isDone,
        advance_row, advance_column, reset_column, max_stack_depth]

/-- From any of the whitespace-scanning stack shapes, `eof ()` sets
`expected_token`: the root matcher receives the end-of-input sentinel
(directly, or after the whitespace matcher above it is popped) and
reports that no token was seen. -/
theorem c9_eof (ms : MState) (mp : Coord) (exts : Extensions) (u : T8_32)
    (herr : ms.error = none) :
    ∀ stk,
      (stk = [Matcher.root .start false, .whitespace .body, .eofm .start] ∨
       stk = [Matcher.whitespace .body, .root .new_token false, .whitespace .body, .eofm .start] ∨
       stk = [Matcher.whitespace .crlf, .root .new_token false, .whitespace .body, .eofm .start]) →
      (eofRun ⟨ms, stk, mp, exts, u⟩).ms.error = some Err.expected_token := by
  obtain ⟨e, s, ev, p⟩ := ms
  cases herr
  intro stk hstk
  rcases hstk with hstk | hstk | hstk <;> subst hstk <;>
    simp [eofRun, eofLoop, Matcher.consume, root_consume, ws_consume, eof_consume,
      token_consume, number_consume, string_consume]

/-- C9: for every input made only of whitespace bytes (tab, LF, CR,
space) — including the empty input — `eof ()` sets the sticky error
`expected_token`: there is no successful parse of an empty document. -/
theorem c9_whitespace_only_expected_token (exts : Extensions) (bs : List Nat)
    (hb : ∀ b ∈ bs, b = 9 ∨ b = 10 ∨ b = 13 ∨ b = 32) :
    (eofRun (input (initState exts) bs)).ms.error = some Err.expected_token := by
  suffices h : ∀ (cs : List Nat), (∀ b ∈ cs, b = 9 ∨ b = 10 ∨ b = 13 ∨ b = 32) →
      ∀ st : PState, st.ms.error = none → st.utf = t8_32_init →
      (st.stack = [Matcher.root .start false, .whitespace .body, .eofm .start] ∨
       st.stack = [Matcher.whitespace .body, .root .new_token false, .whitespace .body, .eofm .start] ∨
       st.stack = [Matcher.whitespace .crlf, .root .new_token false, .whitespace .body, .eofm .start]) →
      (input st cs).ms.error = none ∧ (input st cs).utf = t8_32_init ∧
        ((input st cs).stack = [Matcher.root .start false, .whitespace .body, .eofm .start] ∨
         (input st cs).stack
            = [Matcher.whitespace .body, .root .new_token false, .whitespace .body, .eofm .start] ∨
         (input st cs).stack
            = [Matcher.whitespace .crlf, .root .new_token false, .whitespace .body, .eofm .start]) by
    obtain ⟨herr, hutf, hstk⟩ := h bs hb (initState exts) rfl rfl (Or.inl rfl)
    set st := input (initState exts) bs with hst
    obtain ⟨ms, stk, mp, exts2, u⟩ := st
    cases hutf
    exact c9_eof ms mp exts2 t8_32_init herr stk hstk
  intro cs
  induction cs with
  | nil =>
    intro _ st herr hutf hstk
    exact ⟨herr, hutf, hstk⟩
  | cons b cs ih =>
    intro hcs st herr hutf hstk
    have hb1 : b = 9 ∨ b = 10 ∨ b = 13 ∨ b = 32 := hcs b (by simp)
    have hcs' : ∀ x ∈ cs, x = 9 ∨ x = 10 ∨ x = 13 ∨ x = 32 := by
      intro x hx; exact hcs x (by simp [hx])
    rw [input, List.foldl_cons]
    obtain ⟨ms, stk, mp, exts2, u⟩ := st
    cases hutf
    obtain ⟨h1, h2, h3⟩ := c9_step ms mp exts2 b hb1 herr stk hstk
    exact ih hcs' _ h1 h2 (Or.inr h3)

/-- C9 witness: a single space followed by `eof ()` yields
`expected_token`. -/
theorem c9_whitespace_only_expected_token_witness :
    (∀ b ∈ [32], b = 9 ∨ b = 10 ∨ b = 13 ∨ b = 32) ∧
      (eofRun (input (initState extNone) [32])).ms.error = some Err.expected_token :=
  ⟨by decide, c9_whitespace_only_expected_token extNone [32] (by decide)⟩

end Peejay
